import Mathlib

/-!
Verification of the streaming batch loader in
`target_stitch_petlove/__init__.py` (a Singer target).

The development shallowly embeds `persist_lines`, `emit_state` and the
flush logic.  Python's mutable local state becomes an explicit record
`PState` threaded through a step function; every `raise` becomes an
`Except.error` carrying the error kind together with the state at the
moment the exception is raised (so that claims about what was or was not
mutated before an abort can be stated).  The two external collaborators
are parameters:

* `mkV`       models `Draft4Validator(schema)` construction, which the
              spec requires to be able to fail on a structurally invalid
              schema document;
* `validate`  models `validator.validate(record)` for the validator built
              from a given schema, failing on invalid records;
* `clock`     models `int(time.time())`; call number `n` is the reading
              taken after the `n`-th flush (call `0` is the one at run
              start), so quantifying over `clock` covers every possible
              timing.

`post_data` performs an HTTP POST; the embedding records each submission
in a `flushes` log instead, which is exactly the observable the claims
talk about.
-/

/-- A decoded JSON document, as produced by `json.loads`.  `null` also
plays the role of Python `None` (which is what `json.loads` decodes JSON
`null` to, and what `state` is initialised to). -/
inductive JsonV where
  | null
  | bool (b : Bool)
  | num (n : Int)
  | str (s : String)
  | arr (elems : List JsonV)
  | obj (fields : List (String × JsonV))

mutual

/-- Structural equality of JSON values, playing Python `==` for the
values that appear as dictionary keys (only hashable scalars ever reach
an equality test in the embedded code paths). -/
def jeq : JsonV → JsonV → Bool
  | .null, .null => true
  | .bool a, .bool b => a == b
  | .num a, .num b => a == b
  | .str a, .str b => a == b
  | .arr xs, .arr ys => jeqList xs ys
  | .obj xs, .obj ys => jeqFields xs ys
  | _, _ => false

def jeqList : List JsonV → List JsonV → Bool
  | [], [] => true
  | x :: xs, y :: ys => jeq x y && jeqList xs ys
  | _, _ => false

def jeqFields : List (String × JsonV) → List (String × JsonV) → Bool
  | [], [] => true
  | x :: xs, y :: ys => (x.1 == y.1 && jeq x.2 y.2) && jeqFields xs ys
  | _, _ => false

end

/-- `v` is the Python string `s` (how `o['type'] == 'RECORD'` compares). -/
def isStr (v : JsonV) (s : String) : Bool :=
  match v with
  | .str t => t = s
  | _ => false

/-- `.null` is Python `None` (`state is not None`). -/
def JsonV.isNull : JsonV → Bool
  | .null => true
  | _ => false

/-- Key lookup in a decoded JSON object (keys are unique: `json.loads`
builds a `dict`). -/
def fieldGet (fs : List (String × JsonV)) (k : String) : Option JsonV :=
  (fs.find? (fun p => p.1 == k)).map (fun p => p.2)

/-- `pat` matches at the head of `l`. -/
def headMatch : List Char → List Char → Bool
  | [], _ => true
  | _ :: _, [] => false
  | c :: cs, d :: ds => c == d && headMatch cs ds

/-- `pat` occurs somewhere in `l` (Python `pat in aString`). -/
def subMatch (pat : List Char) : List Char → Bool
  | [] => headMatch pat []
  | l@(_ :: rest) => headMatch pat l || subMatch pat rest

def strContains (s pat : String) : Bool := subMatch pat.toList s.toList

/-- The exceptions `persist_lines` can raise, one constructor per
`raise` site (plus the `TypeError`/`KeyError`/`UnboundLocalError` the
interpreter itself raises on the unguarded operations). -/
inductive PErr where
  /-- `json.decoder.JSONDecodeError`, re-raised for an undecodable line. -/
  | malformedInput
  /-- `Line is missing required key 'type'`. -/
  | missingType
  /-- `Line is missing required key 'stream'`. -/
  | missingStream
  /-- `A record for stream ... was encountered before a corresponding schema`. -/
  | schemaNotDeclared (stream : JsonV)
  /-- Unguarded `o[k]` on a missing key. -/
  | keyError (k : JsonV)
  /-- Interpreter `TypeError` (non-container membership test, unhashable key, ...). -/
  | typeError (msg : String)
  /-- `Draft4Validator(schema)` rejected a structurally invalid schema. -/
  | invalidSchema (msg : String)
  /-- `validator.validate(record)` raised a `ValidationError`. -/
  | validationFailed (msg : String)
  /-- `key_properties field is required`. -/
  | missingKeyProperties
  /-- `Unknown message type ... in message ...`. -/
  | unknownType (t : JsonV)
  /-- Flush reached with the local `schema` never assigned. -/
  | unboundLocalSchema

/-- `'k' in o` for a decoded value `o`: key membership for a dict,
element membership for a list, substring test for a string, and a
`TypeError` for the non-container scalars. -/
def pyIn (k : String) (o : JsonV) : Except PErr Bool :=
  match o with
  | .obj fs => .ok (fieldGet fs k).isSome
  | .arr xs => .ok (xs.any (fun v => isStr v k))
  | .str s => .ok (strContains s k)
  | _ => .error (.typeError "argument is not iterable")

/-- `o['k']`: dict lookup raising `KeyError` when absent, `TypeError` on
a list or string subscripted with a string. -/
def pyGet (o : JsonV) (k : String) : Except PErr JsonV :=
  match o with
  | .obj fs =>
    match fieldGet fs k with
    | some v => .ok v
    | none => .error (.keyError (.str k))
  | _ => .error (.typeError "indices must be integers")

/-- Python hashability of a decoded JSON value: lists and dicts are
unhashable and raise `TypeError` when used as dictionary keys. -/
def hashable : JsonV → Bool
  | .arr _ => false
  | .obj _ => false
  | _ => true

/-- Lookup in a runtime dict (`schemas`, `validators`, `key_properties`)
whose keys are arbitrary hashable values supplied by the input. -/
def dictFind (d : List (JsonV × JsonV)) (k : JsonV) : Option JsonV :=
  (d.find? (fun p => jeq p.1 k)).map (fun p => p.2)

/-- `d[k] = v`: replace the existing binding for `k` or append a new
one. -/
def dictInsert (d : List (JsonV × JsonV)) (k : JsonV) (v : JsonV) :
    List (JsonV × JsonV) :=
  match d with
  | [] => [(k, v)]
  | p :: rest => if jeq p.1 k then (k, v) :: rest else p :: dictInsert rest k v

/-- One element of the `messages` list:
`{'action': 'upsert', 'data': o['record'], 'sequence': timestamp + batch_size}`. -/
structure Op where
  action : String
  data : JsonV
  sequence : Int

/-- One `post_data` call: the envelope
`{'schema': schema, 'table_name': ..., 'messages': messages}`. -/
structure Flush where
  schema : JsonV
  table_name : String
  messages : List Op

/-- The local state of `persist_lines`, plus the log of `post_data`
submissions (`flushes`) standing in for the HTTP side effect.
`schemaVar` is the local variable `schema`, assigned only in the
`RECORD` branch (`none` = never assigned). -/
structure PState where
  state : JsonV
  schemas : List (JsonV × JsonV)
  key_properties : List (JsonV × JsonV)
  validators : List (JsonV × JsonV)
  batch_size : Nat
  number_of_the_current_batch : Nat
  messages : List Op
  timestamp : Int
  schemaVar : Option JsonV
  flushes : List Flush

/-- The configuration keys `persist_lines` and its flush read
(`config.get('batch_size', 1000)`, `config.get('table_name', "")`). -/
structure Config where
  batch_size : Option Int
  table_name : Option String

def Config.maxBatchSize (cfg : Config) : Int := cfg.batch_size.getD 1000

def Config.tableName (cfg : Config) : String := cfg.table_name.getD ""

/-- The state at the top of `persist_lines`; `clock 0` is the initial
`int(time.time())`. -/
def initState (clock : Nat → Int) : PState :=
  { state := .null, schemas := [], key_properties := [], validators := [],
    batch_size := 0, number_of_the_current_batch := 1, messages := [],
    timestamp := clock 0, schemaVar := none, flushes := [] }

/-- The `t == 'RECORD'` branch of the loop body.  Mutations happen in
source order, so the state carried by an error is exactly the state at
the moment the exception is raised (`schemaVar` is already set when the
unguarded `o['record']` lookup or the validation raises). -/
def procRecord (validate : JsonV → JsonV → Except String Unit)
    (o : JsonV) (s : PState) : Except (PErr × PState) PState :=
  match pyIn "stream" o with
  | .error e => .error (e, s)
  | .ok false => .error (.missingStream, s)
  | .ok true =>
  match pyGet o "stream" with
  | .error e => .error (e, s)
  | .ok stv =>
  if hashable stv then
    match dictFind s.schemas stv with
    | none => .error (.schemaNotDeclared stv, s)
    | some sc =>
    -- schema = schemas[o['stream']] : from here on the local is assigned
    match dictFind s.validators stv with
    | none => .error (.keyError stv, { s with schemaVar := some sc })
    | some vsc =>
    match pyGet o "record" with
    | .error e => .error (e, { s with schemaVar := some sc })
    | .ok rcd =>
    match validate vsc rcd with
    | .error m => .error (.validationFailed m, { s with schemaVar := some sc })
    | .ok _ =>
      .ok { s with
            schemaVar := some sc
            batch_size := s.batch_size + 1
            messages := s.messages ++
              [{ action := "upsert", data := rcd,
                 sequence := s.timestamp + ((s.batch_size + 1 : Nat) : Int) }]
            state := .null }
  else .error (.typeError "unhashable type", s)

/-- The `t == 'STATE'` branch: `state = o['value']`. -/
def procState (o : JsonV) (s : PState) : Except (PErr × PState) PState :=
  match pyGet o "value" with
  | .error e => .error (e, s)
  | .ok v => .ok { s with state := v }

/-- The `t == 'SCHEMA'` branch.  `schemas[stream]` is assigned before
the validator is constructed, which is assigned before `key_properties`
is checked; an abort in between leaves the earlier assignments behind. -/
def procSchema (mkV : JsonV → Except String Unit)
    (o : JsonV) (s : PState) : Except (PErr × PState) PState :=
  match pyIn "stream" o with
  | .error e => .error (e, s)
  | .ok false => .error (.missingStream, s)
  | .ok true =>
  match pyGet o "stream" with
  | .error e => .error (e, s)
  | .ok stv =>
  -- schemas[stream] = o['schema'] : the RHS is evaluated first
  match pyGet o "schema" with
  | .error e => .error (e, s)
  | .ok sc =>
  if hashable stv then
    match mkV sc with
    | .error m =>
      .error (.invalidSchema m, { s with schemas := dictInsert s.schemas stv sc })
    | .ok _ =>
    match pyIn "key_properties" o with
    | .error e =>
      .error (e, { s with
                   schemas := dictInsert s.schemas stv sc
                   validators := dictInsert s.validators stv sc })
    | .ok false =>
      .error (.missingKeyProperties,
        { s with
          schemas := dictInsert s.schemas stv sc
          validators := dictInsert s.validators stv sc })
    | .ok true =>
    match pyGet o "key_properties" with
    | .error e =>
      .error (e, { s with
                   schemas := dictInsert s.schemas stv sc
                   validators := dictInsert s.validators stv sc })
    | .ok kp =>
      .ok { s with
            schemas := dictInsert s.schemas stv sc
            validators := dictInsert s.validators stv sc
            key_properties := dictInsert s.key_properties stv kp }
  else .error (.typeError "unhashable type", s)

/-- The per-message body of the loop in `persist_lines` (everything
between the decode and the batch-size check), for an already decoded
message `o`: the `type` dispatch, routed to the branch functions. -/
def procMsg (mkV : JsonV → Except String Unit)
    (validate : JsonV → JsonV → Except String Unit)
    (o : JsonV) (s : PState) : Except (PErr × PState) PState :=
  match pyIn "type" o with
  | .error e => .error (e, s)
  | .ok false => .error (.missingType, s)
  | .ok true =>
  match pyGet o "type" with
  | .error e => .error (e, s)
  | .ok t =>
  if isStr t "RECORD" then procRecord validate o s
  else if isStr t "STATE" then procState o s
  else if isStr t "SCHEMA" then procSchema mkV o s
  else .error (.unknownType t, s)

/-- `if batch_size > max_batch_size: ... post_data ...`, run after every
message.  A successful flush logs the envelope, clears `messages`,
refreshes the window timestamp from the clock and resets the counter. -/
def checkFlush (clock : Nat → Int) (maxB : Int) (tbl : String) (s : PState) :
    Except (PErr × PState) PState :=
  if (s.batch_size : Int) > maxB then
    match s.schemaVar with
    | none => .error (.unboundLocalSchema, s)
    | some sch =>
      .ok { s with
        flushes := s.flushes ++ [{ schema := sch, table_name := tbl,
                                   messages := s.messages }],
        messages := [],
        timestamp := clock (s.flushes.length + 1),
        number_of_the_current_batch := s.number_of_the_current_batch + 1,
        batch_size := 0 }
  else .ok s

/-- `if len(messages) > 0: ... post_data ...` after the loop.  The
source does not clear `messages` here, and neither do we. -/
def finalFlush (tbl : String) (s : PState) : Except (PErr × PState) PState :=
  if s.messages.length > 0 then
    match s.schemaVar with
    | none => .error (.unboundLocalSchema, s)
    | some sch =>
      .ok { s with
        flushes := s.flushes ++ [{ schema := sch, table_name := tbl,
                                   messages := s.messages }] }
  else .ok s

/-- The loop of `persist_lines` over decode results (`none` is a line on
which `json.loads` raised, which the loop re-raises). -/
def persistMsgs (mkV : JsonV → Except String Unit)
    (validate : JsonV → JsonV → Except String Unit)
    (clock : Nat → Int) (maxB : Int) (tbl : String) :
    List (Option JsonV) → PState → Except (PErr × PState) PState
  | [], s => .ok s
  | none :: _, s => .error (.malformedInput, s)
  | some o :: rest, s =>
    match procMsg mkV validate o s with
    | .error e => .error e
    | .ok s1 =>
      match checkFlush clock maxB tbl s1 with
      | .error e => .error e
      | .ok s2 => persistMsgs mkV validate clock maxB tbl rest s2

/-- `persist_lines(config, lines)`: runs the loop from the initial
state, performs the final flush, and returns the final `state` together
with the final local state (whose `flushes` log is the run's observable
HTTP activity). -/
def persist_lines (mkV : JsonV → Except String Unit)
    (validate : JsonV → JsonV → Except String Unit)
    (clock : Nat → Int) (cfg : Config) (lines : List (Option JsonV)) :
    Except (PErr × PState) (JsonV × PState) :=
  match persistMsgs mkV validate clock cfg.maxBatchSize cfg.tableName lines
      (initState clock) with
  | .error e => .error e
  | .ok s =>
    match finalFlush cfg.tableName s with
    | .error e => .error e
    | .ok s1 => .ok (s1.state, s1)

/-- `emit_state(state)`: the checkpoint line written to stdout, if any
(`if state is not None`). -/
def emit_state (state : JsonV) : Option JsonV :=
  if state.isNull then none else some state

/-- The sequence numbers of a list of pending operations, in order. -/
def seqsOf (ops : List Op) : List Int := ops.map (fun op => op.sequence)

/-- `base + 1, base + 2, ..., base + n`: the shape sequence numbers take
within one batch window. -/
def seqRange (base : Int) (n : Nat) : List Int :=
  (List.range n).map (fun i => base + ((i + 1 : Nat) : Int))

/-- The effect a decoded line has on the tracked checkpoint: a `STATE`
message installs its `value`, a `RECORD` message resets it to none
(`.null`), anything else leaves it alone (`none` here = no effect). -/
def stateEffect (o : Option JsonV) : Option JsonV :=
  match o with
  | some (.obj fs) =>
    match fieldGet fs "type" with
    | some (.str "STATE") => some ((fieldGet fs "value").getD .null)
    | some (.str "RECORD") => some .null
    | _ => none
  | _ => none

/-- The checkpoint the spec says the run must return: the value of the
most recent `STATE` message not followed by any later `RECORD` message,
and none (`.null`) when a `RECORD` is the most recent state-affecting
event or no `STATE` was ever seen. -/
def lastStateEvent (lines : List (Option JsonV)) : JsonV :=
  match lines.reverse.find? (fun o => (stateEffect o).isSome) with
  | some o => (stateEffect o).getD .null
  | none => .null

/-- Extract the state a run step ended in, whether or not it raised
(used to name concrete intermediate states in closed statements). -/
def stateOf (r : Except (PErr × PState) PState) : PState :=
  match r with
  | .ok s => s
  | .error e => e.2

/-- `persist_lines` on raw text lines, given a decoder standing for
`json.loads` (`none` = `JSONDecodeError`). -/
def persist_lines_str (mkV : JsonV → Except String Unit)
    (validate : JsonV → JsonV → Except String Unit)
    (clock : Nat → Int) (cfg : Config) (decode : String → Option JsonV)
    (lines : List String) : Except (PErr × PState) (JsonV × PState) :=
  persist_lines mkV validate clock cfg (lines.map decode)

/-! Concrete fixtures used by witnesses and counterexamples: a validator
constructor and a validator that accept everything, a constant clock,
and well-formed messages over a stream called `"users"`. -/

def mkVAll : JsonV → Except String Unit := fun _ => .ok ()

def valAll : JsonV → JsonV → Except String Unit := fun _ _ => .ok ()

def clk100 : Nat → Int := fun _ => 100

def schemaMsg (stream : String) (sc kp : JsonV) : JsonV :=
  .obj [("type", .str "SCHEMA"), ("stream", .str stream), ("schema", sc),
        ("key_properties", kp)]

def recordMsg (stream : String) (r : JsonV) : JsonV :=
  .obj [("type", .str "RECORD"), ("stream", .str stream), ("record", r)]

def stateMsg (v : JsonV) : JsonV :=
  .obj [("type", .str "STATE"), ("value", v)]

def usersSchema : JsonV := .obj [("type", .str "object")]

def usersSchemaMsg : JsonV := schemaMsg "users" usersSchema (.arr [.str "id"])

/-! ### Structural equality agrees with propositional equality -/

mutual

theorem jeq_eq (a b : JsonV) : jeq a b = true ↔ a = b := by
  cases a <;> cases b <;> simp only [jeq] <;>
    first
    | (rename_i xs ys; rw [jeqList_eq xs ys]; simp)
    | (rename_i xs ys; rw [jeqFields_eq xs ys]; simp)
    | simp

theorem jeqList_eq (xs ys : List JsonV) : jeqList xs ys = true ↔ xs = ys := by
  cases xs <;> cases ys <;> simp only [jeqList] <;>
    first
    | (rename_i x xs y ys
       rw [Bool.and_eq_true, jeq_eq x y, jeqList_eq xs ys]
       simp)
    | simp

theorem jeqFields_eq (xs ys : List (String × JsonV)) :
    jeqFields xs ys = true ↔ xs = ys := by
  cases xs <;> cases ys <;> simp only [jeqFields] <;>
    first
    | (rename_i x xs y ys
       rw [Bool.and_eq_true, Bool.and_eq_true, jeq_eq x.2 y.2,
           jeqFields_eq xs ys]
       simp [Prod.ext_iff, and_assoc])
    | simp

end

instance : DecidableEq JsonV := fun a b => decidable_of_iff _ (jeq_eq a b)

theorem jeq_decide (a b : JsonV) : jeq a b = decide (a = b) := by
  by_cases h : a = b
  · subst h
    simp [(jeq_eq a a).2 rfl]
  · cases hj : jeq a b
    · simp [h]
    · exact absurd ((jeq_eq a b).1 hj) h

/-! ### Dictionary lemmas -/

theorem dictFind_cons (a b : JsonV) (d : List (JsonV × JsonV)) (q : JsonV) :
    dictFind ((a, b) :: d) q = if a = q then some b else dictFind d q := by
  simp only [dictFind, List.find?, jeq_decide]
  by_cases h : a = q <;> simp [h]

theorem dictFind_insert (d : List (JsonV × JsonV)) (k v q : JsonV) :
    dictFind (dictInsert d k v) q = if q = k then some v else dictFind d q := by
  induction d with
  | nil =>
    by_cases h : q = k
    · subst h; simp [dictInsert, dictFind_cons]
    · have h' : ¬ k = q := fun e => h e.symm
      simp [dictInsert, dictFind_cons, dictFind, h, h', jeq_decide]
  | cons p rest ih =>
    by_cases hpk : p.1 = k
    · by_cases hq : q = k
      · subst hq
        simp [dictInsert, jeq_decide, hpk, dictFind_cons]
      · have hkq : ¬ k = q := fun e => hq e.symm
        have hpq : ¬ p.1 = q := fun e => hq (by rw [← e, hpk])
        have : (p.1, p.2) = p := rfl
        simp only [dictInsert, jeq_decide, hpk]
        simp only [decide_eq_true_eq, if_pos trivial, hpk, if_true]
        rw [dictFind_cons, ← this, dictFind_cons]
        simp [hkq, hpq, hq]
    · have hins : dictInsert (p :: rest) k v = p :: dictInsert rest k v := by
        simp [dictInsert, jeq_decide, hpk]
      by_cases hq : q = k
      · rw [hins, show p = (p.1, p.2) from rfl, dictFind_cons, dictFind_cons, ih]
        simp [hq, hpk]
      · rw [hins, show p = (p.1, p.2) from rfl, dictFind_cons, dictFind_cons, ih]
        by_cases hpq : p.1 = q <;> simp [hpq, hq]

theorem dictFind_insert_self (d : List (JsonV × JsonV)) (k v : JsonV) :
    dictFind (dictInsert d k v) k = some v := by
  simp [dictFind_insert]

/-! ### Run decomposition and checkpoint tracking -/

theorem persistMsgs_append (mkV : JsonV → Except String Unit)
    (validate : JsonV → JsonV → Except String Unit)
    (clock : Nat → Int) (maxB : Int) (tbl : String)
    (xs ys : List (Option JsonV)) (s : PState) :
    persistMsgs mkV validate clock maxB tbl (xs ++ ys) s =
      match persistMsgs mkV validate clock maxB tbl xs s with
      | .ok s1 => persistMsgs mkV validate clock maxB tbl ys s1
      | .error e => .error e := by
  induction xs generalizing s with
  | nil => simp [persistMsgs]
  | cons l rest ih =>
    cases l with
    | none => simp [persistMsgs]
    | some o =>
      cases h1 : procMsg mkV validate o s with
      | error e => simp [persistMsgs, h1]
      | ok s1 =>
        cases h2 : checkFlush clock maxB tbl s1 with
        | error e => simp [persistMsgs, h1, h2]
        | ok s2 => simp [persistMsgs, h1, h2, ih s2]

theorem checkFlush_state (clock : Nat → Int) (maxB : Int) (tbl : String)
    (s s' : PState) (h : checkFlush clock maxB tbl s = .ok s') :
    s'.state = s.state := by
  unfold checkFlush at h
  split at h
  · split at h
    · exact Except.noConfusion h
    · injection h with h
      subst h
      rfl
  · injection h with h
    subst h
    rfl

theorem finalFlush_state (tbl : String) (s s' : PState)
    (h : finalFlush tbl s = .ok s') : s'.state = s.state := by
  unfold finalFlush at h
  split at h
  · split at h
    · exact Except.noConfusion h
    · injection h with h
      subst h
      rfl
  · injection h with h
    subst h
    rfl

theorem isStr_true (t : JsonV) (u : String) (h : isStr t u = true) :
    t = .str u := by
  cases t <;> simp_all [isStr]

/-- Everything a successful `RECORD` step guarantees: the shape of the
message, the registry lookups it performed, and the exact new state. -/
theorem procRecord_ok (validate : JsonV → JsonV → Except String Unit)
    (o : JsonV) (s s' : PState) (h : procRecord validate o s = .ok s') :
    ∃ stv sc vsc rcd,
      pyIn "stream" o = .ok true ∧
      pyGet o "stream" = .ok stv ∧ hashable stv = true ∧
      dictFind s.schemas stv = some sc ∧
      dictFind s.validators stv = some vsc ∧
      pyGet o "record" = .ok rcd ∧ validate vsc rcd = .ok () ∧
      s' = { s with
             schemaVar := some sc
             batch_size := s.batch_size + 1
             messages := s.messages ++
               [{ action := "upsert", data := rcd,
                  sequence := s.timestamp + ((s.batch_size + 1 : Nat) : Int) }]
             state := .null } := by
  unfold procRecord at h
  cases hin : pyIn "stream" o with
  | error e => simp [hin] at h
  | ok b =>
  cases b with
  | false => simp [hin] at h
  | true =>
  simp only [hin] at h
  cases hst : pyGet o "stream" with
  | error e => simp [hst] at h
  | ok stv =>
  simp only [hst] at h
  by_cases hh : hashable stv = true
  case neg => simp [hh] at h
  simp only [hh, if_true] at h
  cases hsc : dictFind s.schemas stv with
  | none => simp [hsc] at h
  | some sc =>
  simp only [hsc] at h
  cases hv : dictFind s.validators stv with
  | none => simp [hv] at h
  | some vsc =>
  simp only [hv] at h
  cases hrec : pyGet o "record" with
  | error e => simp [hrec] at h
  | ok rcd =>
  simp only [hrec] at h
  cases hval : validate vsc rcd with
  | error m => simp [hval] at h
  | ok u =>
  simp only [hval] at h
  injection h with h
  exact ⟨stv, sc, vsc, rcd, rfl, rfl, hh, hsc, hv, rfl,
    by cases u; exact hval, h.symm⟩

/-- A successful `STATE` step installs `o['value']` and changes nothing
else. -/
theorem procState_ok (o : JsonV) (s s' : PState)
    (h : procState o s = .ok s') :
    ∃ v, pyGet o "value" = .ok v ∧ s' = { s with state := v } := by
  unfold procState at h
  split at h
  · exact Except.noConfusion h
  · rename_i v hv
    injection h with h
    exact ⟨v, hv, h.symm⟩

/-- Everything a successful `SCHEMA` step guarantees: the fields it
read and the exact new state (all three registries updated at `stream`). -/
theorem procSchema_ok (mkV : JsonV → Except String Unit)
    (o : JsonV) (s s' : PState) (h : procSchema mkV o s = .ok s') :
    ∃ stv sc kp,
      pyIn "stream" o = .ok true ∧
      pyGet o "stream" = .ok stv ∧
      pyGet o "schema" = .ok sc ∧ hashable stv = true ∧
      mkV sc = .ok () ∧
      pyIn "key_properties" o = .ok true ∧
      pyGet o "key_properties" = .ok kp ∧
      s' = { s with
             schemas := dictInsert s.schemas stv sc
             validators := dictInsert s.validators stv sc
             key_properties := dictInsert s.key_properties stv kp } := by
  unfold procSchema at h
  cases hin : pyIn "stream" o with
  | error e => simp [hin] at h
  | ok b =>
  cases b with
  | false => simp [hin] at h
  | true =>
  simp only [hin] at h
  cases hst : pyGet o "stream" with
  | error e => simp [hst] at h
  | ok stv =>
  simp only [hst] at h
  cases hsc : pyGet o "schema" with
  | error e => simp [hsc] at h
  | ok sc =>
  simp only [hsc] at h
  by_cases hh : hashable stv = true
  case neg => simp [hh] at h
  simp only [hh, if_true] at h
  cases hmk : mkV sc with
  | error m => simp [hmk] at h
  | ok u =>
  simp only [hmk] at h
  cases hkin : pyIn "key_properties" o with
  | error e => simp [hkin] at h
  | ok b2 =>
  cases b2 with
  | false => simp [hkin] at h
  | true =>
  simp only [hkin] at h
  cases hkp : pyGet o "key_properties" with
  | error e => simp [hkp] at h
  | ok kp =>
  simp only [hkp] at h
  injection h with h
  exact ⟨stv, sc, kp, rfl, rfl, rfl, hh,
    by cases u; exact hmk, rfl, rfl, h.symm⟩

/-- A successful step came through exactly one of the three dispatch
branches, with a string `type` field selecting it. -/
theorem procMsg_ok (mkV : JsonV → Except String Unit)
    (validate : JsonV → JsonV → Except String Unit) (o : JsonV) (s s' : PState)
    (h : procMsg mkV validate o s = .ok s') :
    pyIn "type" o = .ok true ∧
    ∃ t, pyGet o "type" = .ok t ∧
      ((t = .str "RECORD" ∧ procRecord validate o s = .ok s') ∨
       (t = .str "STATE" ∧ procState o s = .ok s') ∨
       (t = .str "SCHEMA" ∧ procSchema mkV o s = .ok s')) := by
  unfold procMsg at h
  split at h
  · exact Except.noConfusion h
  · exact Except.noConfusion h
  · rename_i hin
    split at h
    · exact Except.noConfusion h
    · rename_i t hget
      split at h
      · rename_i hR
        exact ⟨hin, t, hget, Or.inl ⟨isStr_true t "RECORD" hR, h⟩⟩
      · split at h
        · rename_i hS
          exact ⟨hin, t, hget, Or.inr (Or.inl ⟨isStr_true t "STATE" hS, h⟩)⟩
        · split at h
          · rename_i hC
            exact ⟨hin, t, hget,
              Or.inr (Or.inr ⟨isStr_true t "SCHEMA" hC, h⟩)⟩
          · exact Except.noConfusion h

theorem pyGet_ok_obj (o : JsonV) (k : String) (v : JsonV)
    (h : pyGet o k = .ok v) :
    ∃ fs, o = .obj fs ∧ fieldGet fs k = some v := by
  cases o <;> simp only [pyGet] at h <;> try exact Except.noConfusion h
  rename_i fs
  cases hf : fieldGet fs k with
  | none => rw [hf] at h; exact Except.noConfusion h
  | some w =>
    rw [hf] at h
    injection h with h
    exact ⟨fs, rfl, h ▸ hf⟩

theorem procMsg_state (mkV : JsonV → Except String Unit)
    (validate : JsonV → JsonV → Except String Unit) (o : JsonV) (s s' : PState)
    (h : procMsg mkV validate o s = .ok s') :
    s'.state = (stateEffect (some o)).getD s.state := by
  obtain ⟨-, t, hget, hcases⟩ := procMsg_ok mkV validate o s s' h
  obtain ⟨fs, rfl, hft⟩ := pyGet_ok_obj o "type" t hget
  rcases hcases with ⟨rfl, hb⟩ | ⟨rfl, hb⟩ | ⟨rfl, hb⟩
  · obtain ⟨stv, sc, vsc, rcd, -, -, -, -, -, -, -, rfl⟩ :=
      procRecord_ok validate _ s s' hb
    simp [stateEffect, hft]
  · obtain ⟨v, hv, rfl⟩ := procState_ok _ s s' hb
    obtain ⟨fs', heq, hfv⟩ := pyGet_ok_obj _ "value" v hv
    injection heq with heq
    subst heq
    simp [stateEffect, hft, hfv]
  · obtain ⟨stv, sc, kp, -, -, -, -, -, -, -, rfl⟩ :=
      procSchema_ok mkV _ s s' hb
    simp [stateEffect, hft]

theorem persistMsgs_state (mkV : JsonV → Except String Unit)
    (validate : JsonV → JsonV → Except String Unit)
    (clock : Nat → Int) (maxB : Int) (tbl : String)
    (lines : List (Option JsonV)) (s s' : PState)
    (h : persistMsgs mkV validate clock maxB tbl lines s = .ok s') :
    s'.state = lines.foldl (fun a o => (stateEffect o).getD a) s.state := by
  induction lines generalizing s with
  | nil =>
    simp only [persistMsgs] at h
    injection h with h
    subst h
    rfl
  | cons l rest ih =>
    cases l with
    | none => exact Except.noConfusion h
    | some o =>
      simp only [persistMsgs] at h
      cases h1 : procMsg mkV validate o s with
      | error e => simp [h1] at h
      | ok s1 =>
        simp only [h1] at h
        cases h2 : checkFlush clock maxB tbl s1 with
        | error e => simp [h2] at h
        | ok s2 =>
          simp only [h2] at h
          rw [List.foldl_cons, ← procMsg_state mkV validate o s s1 h1,
            ← checkFlush_state clock maxB tbl s1 s2 h2]
          exact ih s2 h

theorem isNull_iff (v : JsonV) : v.isNull = true ↔ v = .null := by
  cases v <;> simp [JsonV.isNull]

theorem foldl_stateEffect_eq (lines : List (Option JsonV)) (acc : JsonV) :
    lines.foldl (fun a o => (stateEffect o).getD a) acc =
      match lines.reverse.find? (fun o => (stateEffect o).isSome) with
      | some o => (stateEffect o).getD .null
      | none => acc := by
  induction lines generalizing acc with
  | nil => rfl
  | cons l rest ih =>
    rw [List.foldl_cons, ih, List.reverse_cons, List.find?_append]
    cases hfind : rest.reverse.find? (fun o => (stateEffect o).isSome) with
    | some o => simp [Option.or]
    | none =>
      cases hl : stateEffect l with
      | none => simp [Option.or, List.find?, hl]
      | some v => simp [Option.or, List.find?, hl]

/-! ### Claim C1: the run result is the last unfollowed checkpoint -/

/-- Claim C1: for every input sequence processed to exhaustion without a
fatal error, the run's result (returned by `persist_lines` and emitted by
`emit_state` at process end) equals the value of the most recent `STATE`
message that was not followed by any later `RECORD` message; and no
checkpoint line is emitted exactly when that value is none/null (which
covers a trailing `RECORD`, no `STATE` at all, and a null `STATE`
value). -/
theorem run_result_is_last_checkpoint (mkV : JsonV → Except String Unit)
    (validate : JsonV → JsonV → Except String Unit)
    (clock : Nat → Int) (cfg : Config) (lines : List (Option JsonV))
    (st : JsonV) (fin : PState)
    (h : persist_lines mkV validate clock cfg lines = .ok (st, fin)) :
    st = lastStateEvent lines ∧
    (emit_state st = none ↔ lastStateEvent lines = JsonV.null) := by
  have hst : st = lastStateEvent lines := by
    unfold persist_lines at h
    cases h1 : persistMsgs mkV validate clock cfg.maxBatchSize cfg.tableName
        lines (initState clock) with
    | error e => simp [h1] at h
    | ok s =>
      simp only [h1] at h
      cases h2 : finalFlush cfg.tableName s with
      | error e => simp [h2] at h
      | ok s1 =>
        simp only [h2] at h
        injection h with h
        have hfst : s1.state = st := congrArg Prod.fst h
        rw [← hfst, finalFlush_state _ _ _ h2,
          persistMsgs_state _ _ _ _ _ _ _ _ h1]
        rw [foldl_stateEffect_eq]
        unfold lastStateEvent
        cases lines.reverse.find? (fun o => (stateEffect o).isSome) <;> rfl
  refine ⟨hst, ?_⟩
  rw [hst]
  cases hv : lastStateEvent lines <;> simp [emit_state, JsonV.isNull]

def c1lines : List (Option JsonV) :=
  [some usersSchemaMsg, some (recordMsg "users" (.num 1)),
   some (stateMsg (.num 7))]

def c1fin : PState :=
  match persist_lines mkVAll valAll clk100 ⟨none, none⟩ c1lines with
  | .ok p => p.2
  | .error e => e.2

/-- Concrete instantiation of `run_result_is_last_checkpoint`: the run
over `SCHEMA, RECORD, STATE(7)` returns checkpoint `7`. -/
theorem run_result_is_last_checkpoint_witness :
    (JsonV.num 7) = lastStateEvent c1lines ∧
    (emit_state (JsonV.num 7) = none ↔ lastStateEvent c1lines = JsonV.null) :=
  run_result_is_last_checkpoint mkVAll valAll clk100 ⟨none, none⟩ c1lines
    (JsonV.num 7) c1fin rfl

/-! ### The batch-window invariant -/

/-- `seqRange b (n+1)` grows by `b + (n+1)` at the right end. -/
theorem seqRange_snoc (b : Int) (n : Nat) :
    seqRange b (n + 1) = seqRange b n ++ [b + ((n + 1 : Nat) : Int)] := by
  simp [seqRange, List.range_succ]

theorem seqRange_zero (b : Int) : seqRange b 0 = [] := rfl

/-- Bounds for the members of a window's sequence list. -/
theorem mem_seqRange (b x : Int) (n : Nat) (hx : x ∈ seqRange b n) :
    b < x ∧ x ≤ b + (n : Int) := by
  simp only [seqRange, List.mem_map, List.mem_range] at hx
  obtain ⟨i, hi, rfl⟩ := hx
  constructor
  · have : (0 : Int) < ((i + 1 : Nat) : Int) := by positivity
    omega
  · have : ((i + 1 : Nat) : Int) ≤ (n : Int) := by exact_mod_cast hi
    omega

/-- Sequence numbers within one window are strictly increasing. -/
theorem seqRange_pairwise (b : Int) (n : Nat) :
    List.Pairwise (· < ·) (seqRange b n) := by
  refine List.Pairwise.map _ ?_ (List.pairwise_lt_range n)
  intro a c hac
  have : ((a + 1 : Nat) : Int) < ((c + 1 : Nat) : Int) := by exact_mod_cast by omega
  omega

theorem seqRange_nodup (b : Int) (n : Nat) : (seqRange b n).Nodup :=
  (seqRange_pairwise b n).imp (fun h => ne_of_lt h)

/-- The state invariant maintained between loop iterations: the batch
counter counts the pending operations, the pending sequence numbers are
exactly `timestamp + 1 .. timestamp + batch_size`, the window timestamp
is the clock reading indexed by the number of flushes so far, every past
flush carries the contiguous sequence numbers of its own window (of at
most `maxB + 1` operations), a non-empty buffer means the local `schema`
is assigned, and the schema and validator registries have the same
keys. -/
structure LoopInv (clock : Nat → Int) (maxB : Int) (s : PState) : Prop where
  count_eq : s.batch_size = s.messages.length
  count_le : (s.batch_size : Int) ≤ maxB
  seqs : seqsOf s.messages = seqRange s.timestamp s.batch_size
  ts : s.timestamp = clock s.flushes.length
  flush_seqs : ∀ k, (hk : k < s.flushes.length) →
    seqsOf (s.flushes[k]).messages
      = seqRange (clock k) ((s.flushes[k]).messages.length) ∧
    (((s.flushes[k]).messages.length : Int) ≤ maxB + 1)
  schemaSet : s.messages ≠ [] → s.schemaVar.isSome = true
  doms : ∀ k, (dictFind s.schemas k).isSome = (dictFind s.validators k).isSome

theorem initState_inv (clock : Nat → Int) (maxB : Int) (hmax : 0 ≤ maxB) :
    LoopInv clock maxB (initState clock) := by
  refine ⟨rfl, by exact_mod_cast hmax, rfl, rfl, ?_, ?_, fun k => rfl⟩
  · intro k hk
    exact absurd hk (by simp [initState])
  · intro hne
    exact absurd rfl hne

/-- What one successful message step preserves and changes: the pieces
of the invariant that do not depend on the threshold check, plus the
count bound `maxB + 1` that holds between the append and the check. -/
theorem procMsg_pre (mkV : JsonV → Except String Unit)
    (validate : JsonV → JsonV → Except String Unit)
    (clock : Nat → Int) (maxB : Int) (o : JsonV) (s s' : PState)
    (h : procMsg mkV validate o s = .ok s') (inv : LoopInv clock maxB s) :
    s'.batch_size = s'.messages.length ∧
    seqsOf s'.messages = seqRange s'.timestamp s'.batch_size ∧
    s'.timestamp = s.timestamp ∧
    s'.flushes = s.flushes ∧
    ((s'.batch_size : Int) ≤ maxB + 1) ∧
    (s'.messages ≠ [] → s'.schemaVar.isSome = true) ∧
    (∀ k, (dictFind s'.schemas k).isSome = (dictFind s'.validators k).isSome) := by
  obtain ⟨-, t, hget, hcases⟩ := procMsg_ok mkV validate o s s' h
  rcases hcases with ⟨-, hb⟩ | ⟨-, hb⟩ | ⟨-, hb⟩
  · obtain ⟨stv, sc, vsc, rcd, -, -, -, -, -, -, -, rfl⟩ :=
      procRecord_ok validate _ s s' hb
    refine ⟨?_, ?_, rfl, rfl, ?_, ?_, inv.doms⟩
    · simp [inv.count_eq]
    · simp only [seqsOf, List.map_append, List.map_cons, List.map_nil]
      rw [show (List.map (fun op => op.sequence) s.messages) =
        seqsOf s.messages from rfl, inv.seqs, ← seqRange_snoc]
    · have := inv.count_le
      have h2 : ((s.batch_size + 1 : Nat) : Int) = (s.batch_size : Int) + 1 := by
        push_cast
        ring
      dsimp only
      omega
    · intro _
      rfl
  · obtain ⟨v, hv, rfl⟩ := procState_ok _ s s' hb
    exact ⟨inv.count_eq, inv.seqs, rfl, rfl,
      by have := inv.count_le; dsimp only; omega, inv.schemaSet, inv.doms⟩
  · obtain ⟨stv, sc, kp, -, -, -, -, -, -, -, rfl⟩ :=
      procSchema_ok mkV _ s s' hb
    refine ⟨inv.count_eq, inv.seqs, rfl, rfl,
      by have := inv.count_le; dsimp only; omega, inv.schemaSet, ?_⟩
    intro k
    simp only [dictFind_insert]
    by_cases hk : k = stv
    · simp [hk]
    · simp [hk, inv.doms k]

/-- When the threshold is crossed and the `schema` local is assigned,
the check performs exactly one flush: it logs the envelope, clears the
buffer, refreshes the timestamp and resets the counter. -/
theorem checkFlush_fires (clock : Nat → Int) (maxB : Int) (tbl : String)
    (s : PState) (sch : JsonV) (hgt : (s.batch_size : Int) > maxB)
    (hsv : s.schemaVar = some sch) :
    checkFlush clock maxB tbl s =
      .ok { s with
            flushes := s.flushes ++
              [{ schema := sch, table_name := tbl, messages := s.messages }]
            messages := []
            timestamp := clock (s.flushes.length + 1)
            number_of_the_current_batch := s.number_of_the_current_batch + 1
            batch_size := 0 } := by
  unfold checkFlush
  rw [if_pos hgt, hsv]

/-- The threshold check restores the full invariant from the
post-append facts. -/
theorem checkFlush_inv (clock : Nat → Int) (maxB : Int) (tbl : String)
    (s s' : PState) (hmax : 0 ≤ maxB)
    (h1 : s.batch_size = s.messages.length)
    (h2 : seqsOf s.messages = seqRange s.timestamp s.batch_size)
    (h3 : s.timestamp = clock s.flushes.length)
    (h4 : ∀ k, (hk : k < s.flushes.length) →
      seqsOf (s.flushes[k]).messages
        = seqRange (clock k) ((s.flushes[k]).messages.length) ∧
      (((s.flushes[k]).messages.length : Int) ≤ maxB + 1))
    (h5 : (s.batch_size : Int) ≤ maxB + 1)
    (h6 : s.messages ≠ [] → s.schemaVar.isSome = true)
    (h7 : ∀ k, (dictFind s.schemas k).isSome = (dictFind s.validators k).isSome)
    (h : checkFlush clock maxB tbl s = .ok s') :
    LoopInv clock maxB s' := by
  unfold checkFlush at h
  by_cases hgt : (s.batch_size : Int) > maxB
  · rw [if_pos hgt] at h
    have hne : s.messages ≠ [] := by
      intro he
      rw [he] at h1
      simp only [List.length_nil] at h1
      rw [h1] at hgt
      simp at hgt
      omega
    have hsv := h6 hne
    cases hs : s.schemaVar with
    | none => rw [hs] at hsv; simp at hsv
    | some sch =>
      rw [hs] at h
      injection h with h
      subst h
      refine ⟨rfl, by simpa using hmax, rfl, ?_, ?_, ?_, h7⟩
      · simp
      · intro k hk
        simp only [List.length_append, List.length_cons, List.length_nil] at hk
        by_cases hlt : k < s.flushes.length
        · have e1 : (s.flushes ++
              [{ schema := sch, table_name := tbl,
                 messages := s.messages : Flush }])[k] = s.flushes[k] :=
            List.getElem_append_left hlt
          simpa [e1] using h4 k hlt
        · have hke : k = s.flushes.length := by omega
          have e1 : (s.flushes ++
              [{ schema := sch, table_name := tbl,
                 messages := s.messages : Flush }])[k]
              = { schema := sch, table_name := tbl,
                  messages := s.messages : Flush } :=
            List.getElem_concat_length s.flushes _ k hke _
          rw [e1]
          refine ⟨?_, ?_⟩
          · dsimp only
            rw [← h1, h2, h3, hke]
          · dsimp only
            rw [← h1]
            exact h5
      · intro hne'
        exact absurd rfl hne'
  · rw [if_neg hgt] at h
    injection h with h
    subst h
    exact ⟨h1, by omega, h2, h3, h4, h6, h7⟩

/-- The invariant holds after any successfully processed prefix. -/
theorem persistMsgs_inv (mkV : JsonV → Except String Unit)
    (validate : JsonV → JsonV → Except String Unit)
    (clock : Nat → Int) (maxB : Int) (tbl : String) (hmax : 0 ≤ maxB)
    (lines : List (Option JsonV)) (s0 s : PState)
    (inv : LoopInv clock maxB s0)
    (h : persistMsgs mkV validate clock maxB tbl lines s0 = .ok s) :
    LoopInv clock maxB s := by
  induction lines generalizing s0 with
  | nil =>
    simp only [persistMsgs] at h
    injection h with h
    subst h
    exact inv
  | cons l rest ih =>
    cases l with
    | none => exact Except.noConfusion h
    | some o =>
      simp only [persistMsgs] at h
      cases h1 : procMsg mkV validate o s0 with
      | error e => simp [h1] at h
      | ok s1 =>
        simp only [h1] at h
        cases h2 : checkFlush clock maxB tbl s1 with
        | error e => simp [h2] at h
        | ok s2 =>
          simp only [h2] at h
          obtain ⟨p1, p2, p3, p4, p5, p6, p7⟩ :=
            procMsg_pre mkV validate clock maxB o s0 s1 h1 inv
          have inv2 := checkFlush_inv clock maxB tbl s1 s2 hmax p1 p2
            (by rw [p3, p4]; exact inv.ts)
            (by rw [p4]; exact inv.flush_seqs) p5 p6 p7 h2
          exact ih s2 inv2 h

/-! ### Claim C2: the accumulator bound at the threshold check -/

def c2pre : List (Option JsonV) :=
  [some usersSchemaMsg, some (recordMsg "users" (.num 1))]

def c2s : PState :=
  stateOf (persistMsgs mkVAll valAll clk100 1 "" c2pre (initState clk100))

def c2s' : PState :=
  stateOf (procMsg mkVAll valAll (recordMsg "users" (.num 2)) c2s)

/-- Claim C2 (counterexample): with `batch_size = 1`, after the second
record is appended the accumulator holds 2 operations at the moment the
threshold check runs, so it is not bounded by `batch_size` there. -/
theorem accumulator_bound_cex :
    persistMsgs mkVAll valAll clk100 1 "" c2pre (initState clk100) = .ok c2s ∧
    procMsg mkVAll valAll (recordMsg "users" (.num 2)) c2s = .ok c2s' ∧
    c2s'.messages.length = 2 ∧ ¬ ((c2s'.messages.length : Int) ≤ 1) :=
  ⟨rfl, rfl, rfl, by decide⟩

/-- Claim C2 (amended): at the moment the post-append threshold check
runs the accumulator holds at most `batch_size + 1` pending operations,
and exceeding the `batch_size` threshold always triggers an immediate
synchronous flush (the buffer is drained into one logged submission)
before the next input line is read. -/
theorem accumulator_bound (mkV : JsonV → Except String Unit)
    (validate : JsonV → JsonV → Except String Unit)
    (clock : Nat → Int) (cfg : Config) (pre : List (Option JsonV))
    (o : JsonV) (s s' : PState)
    (hmax : 0 ≤ cfg.maxBatchSize)
    (hpre : persistMsgs mkV validate clock cfg.maxBatchSize cfg.tableName pre
      (initState clock) = .ok s)
    (hstep : procMsg mkV validate o s = .ok s') :
    ((s'.messages.length : Int) ≤ cfg.maxBatchSize + 1) ∧
    ((s'.messages.length : Int) > cfg.maxBatchSize →
      ∃ s'', checkFlush clock cfg.maxBatchSize cfg.tableName s' = .ok s'' ∧
        s''.messages = [] ∧ s''.flushes.length = s'.flushes.length + 1) := by
  have inv := persistMsgs_inv mkV validate clock cfg.maxBatchSize
    cfg.tableName hmax pre (initState clock) s
    (initState_inv clock cfg.maxBatchSize hmax) hpre
  obtain ⟨p1, p2, p3, p4, p5, p6, p7⟩ :=
    procMsg_pre mkV validate clock cfg.maxBatchSize o s s' hstep inv
  constructor
  · rw [← p1]
    exact p5
  · intro hgt
    have hgt' : (s'.batch_size : Int) > cfg.maxBatchSize := by rw [p1]; exact hgt
    have hne : s'.messages ≠ [] := by
      intro he
      rw [he] at hgt
      simp at hgt
      omega
    have hsv := p6 hne
    cases hs : s'.schemaVar with
    | none => rw [hs] at hsv; simp at hsv
    | some sch =>
      refine ⟨_, checkFlush_fires clock cfg.maxBatchSize cfg.tableName s' sch
        hgt' hs, rfl, ?_⟩
      simp

/-- Concrete instantiation of `accumulator_bound` at the state reached
after `SCHEMA, RECORD` with `batch_size = 1`, stepping the second
`RECORD`. -/
theorem accumulator_bound_witness :
    ((c2s'.messages.length : Int) ≤ (⟨some 1, none⟩ : Config).maxBatchSize + 1) ∧
    ((c2s'.messages.length : Int) > (⟨some 1, none⟩ : Config).maxBatchSize →
      ∃ s'', checkFlush clk100 (⟨some 1, none⟩ : Config).maxBatchSize
          (⟨some 1, none⟩ : Config).tableName c2s' = .ok s'' ∧
        s''.messages = [] ∧ s''.flushes.length = c2s'.flushes.length + 1) :=
  accumulator_bound mkVAll valAll clk100 ⟨some 1, none⟩ c2pre
    (recordMsg "users" (.num 2)) c2s c2s' (by decide) rfl rfl

/-! ### Claim C8: sequence numbers within one batch window -/

/-- Claim C8: within any single batch window (the pending buffer or any
already flushed window `k`), the `n`-th accepted record carries sequence
number `base + n` where `base` is the window's timestamp (`clock k` for
flushed window `k`), so the window's sequence numbers are strictly
increasing and pairwise distinct. -/
theorem window_sequence_numbers (mkV : JsonV → Except String Unit)
    (validate : JsonV → JsonV → Except String Unit)
    (clock : Nat → Int) (cfg : Config) (lines : List (Option JsonV))
    (s : PState) (hmax : 0 ≤ cfg.maxBatchSize)
    (h : persistMsgs mkV validate clock cfg.maxBatchSize cfg.tableName lines
      (initState clock) = .ok s) :
    (seqsOf s.messages = seqRange s.timestamp s.messages.length ∧
     List.Pairwise (· < ·) (seqsOf s.messages) ∧ (seqsOf s.messages).Nodup) ∧
    (∀ k, (hk : k < s.flushes.length) →
      seqsOf (s.flushes[k]).messages
        = seqRange (clock k) ((s.flushes[k]).messages.length) ∧
      List.Pairwise (· < ·) (seqsOf (s.flushes[k]).messages) ∧
      (seqsOf (s.flushes[k]).messages).Nodup) := by
  have inv := persistMsgs_inv mkV validate clock cfg.maxBatchSize
    cfg.tableName hmax lines (initState clock) s
    (initState_inv clock cfg.maxBatchSize hmax) h
  constructor
  · have hs := inv.seqs
    rw [inv.count_eq] at hs
    refine ⟨hs, ?_, ?_⟩
    · rw [hs]
      exact seqRange_pairwise _ _
    · rw [hs]
      exact seqRange_nodup _ _
  · intro k hk
    obtain ⟨e1, -⟩ := inv.flush_seqs k hk
    refine ⟨e1, ?_, ?_⟩
    · rw [e1]
      exact seqRange_pairwise _ _
    · rw [e1]
      exact seqRange_nodup _ _

def c8s : PState :=
  stateOf (persistMsgs mkVAll valAll clk100 10 ""
    [some usersSchemaMsg, some (recordMsg "users" (.num 1)),
     some (recordMsg "users" (.num 2))] (initState clk100))

/-- Concrete instantiation of `window_sequence_numbers` after two
records with a large threshold (both still pending). -/
theorem window_sequence_numbers_witness :
    (seqsOf c8s.messages = seqRange c8s.timestamp c8s.messages.length ∧
     List.Pairwise (· < ·) (seqsOf c8s.messages) ∧ (seqsOf c8s.messages).Nodup) ∧
    (∀ k, (hk : k < c8s.flushes.length) →
      seqsOf (c8s.flushes[k]).messages
        = seqRange (clk100 k) ((c8s.flushes[k]).messages.length) ∧
      List.Pairwise (· < ·) (seqsOf (c8s.flushes[k]).messages) ∧
      (seqsOf (c8s.flushes[k]).messages).Nodup) :=
  window_sequence_numbers mkVAll valAll clk100 ⟨some 10, none⟩
    [some usersSchemaMsg, some (recordMsg "users" (.num 1)),
     some (recordMsg "users" (.num 2))] c8s (by decide) rfl

/-! ### Claim C3: batch_size = 1 with two records -/

def c3lines : List (Option JsonV) :=
  [some usersSchemaMsg, some (recordMsg "users" (.num 1)),
   some (recordMsg "users" (.num 2))]

/-- The final state of an `Except` run of `persist_lines` (the error
state when it aborted). -/
def finStateOf (r : Except (PErr × PState) (JsonV × PState)) : PState :=
  match r with
  | .ok p => p.2
  | .error e => e.2

def c3fin : PState :=
  finStateOf (persist_lines mkVAll valAll clk100 ⟨some 1, none⟩ c3lines)

/-- Claim C3 (counterexample): with `batch_size = 1` and input
`SCHEMA, RECORD, RECORD`, the run performs exactly one flush submission
(containing both operations), not two. -/
theorem two_records_batch_one_cex :
    persist_lines mkVAll valAll clk100 ⟨some 1, none⟩ c3lines
      = .ok (.null, c3fin) ∧
    c3fin.flushes.length = 1 ∧ ¬ (c3fin.flushes.length = 2) ∧
    (c3fin.flushes.map (fun f => f.messages.length)) = [2] :=
  ⟨rfl, rfl, by decide, rfl⟩

/-- Claim C3 (amended): with `batch_size = 1` and an input consisting of
one `SCHEMA` declaration followed by two valid `RECORD` messages for
that stream and no intervening `STATE`, the run performs exactly one
flush submission containing both operations in arrival order (the flush
fires only after the count exceeds the threshold, and nothing is left
for the end-of-input flush), and emits no checkpoint at the end. -/
theorem two_records_batch_one (mkV : JsonV → Except String Unit)
    (validate : JsonV → JsonV → Except String Unit)
    (clock : Nat → Int) (stname : String) (sc kp r1 r2 : JsonV)
    (hmk : mkV sc = .ok ())
    (hv1 : validate sc r1 = .ok ()) (hv2 : validate sc r2 = .ok ()) :
    (persist_lines mkV validate clock ⟨some 1, none⟩
       [some (schemaMsg stname sc kp), some (recordMsg stname r1),
        some (recordMsg stname r2)]).toOption.map
      (fun p => (p.1,
        p.2.flushes.map (fun f => f.messages.map (fun op => op.data)))) =
      some (.null, [[r1, r2]]) ∧
    emit_state .null = none := by
  constructor
  · simp [persist_lines, persistMsgs, Config.maxBatchSize, Config.tableName,
      procMsg, procSchema, procRecord, procState, pyIn, pyGet, fieldGet,
      schemaMsg, recordMsg, isStr, hashable, initState, hmk, hv1, hv2,
      checkFlush, finalFlush, dictInsert, dictFind, jeq, List.find?]
    exact ⟨_, _, rfl, rfl, rfl⟩
  · rfl

/-- Concrete instantiation of `two_records_batch_one` on the `users`
fixtures. -/
theorem two_records_batch_one_witness :
    (persist_lines mkVAll valAll clk100 ⟨some 1, none⟩
       [some (schemaMsg "users" usersSchema (.arr [.str "id"])),
        some (recordMsg "users" (.num 1)),
        some (recordMsg "users" (.num 2))]).toOption.map
      (fun p => (p.1,
        p.2.flushes.map (fun f => f.messages.map (fun op => op.data)))) =
      some (.null, [[.num 1, .num 2]]) ∧
    emit_state .null = none :=
  two_records_batch_one mkVAll valAll clk100 "users" usersSchema
    (.arr [.str "id"]) (.num 1) (.num 2) rfl rfl rfl

/-! ### Claim C4: uniqueness of sequence numbers across the whole run -/

def c4lines : List (Option JsonV) :=
  [some usersSchemaMsg, some (recordMsg "users" (.num 1)),
   some (recordMsg "users" (.num 2)), some (recordMsg "users" (.num 3))]

def c4fin : PState :=
  finStateOf (persist_lines mkVAll valAll clk100 ⟨some 1, none⟩ c4lines)

/-- Claim C4 (counterexample): with a clock whose reading does not
advance across the flush (`int(time.time())` returning 100 both times),
the first operation of the second window receives sequence number 101,
already used by the first operation of the first window: sequence
numbers are not unique within the whole run. -/
theorem run_sequence_unique_cex :
    persist_lines mkVAll valAll clk100 ⟨some 1, none⟩ c4lines
      = .ok (.null, c4fin) ∧
    (c4fin.flushes.map (fun f => seqsOf f.messages)).flatten
      = [101, 102, 101] ∧
    ¬ ((c4fin.flushes.map (fun f => seqsOf f.messages)).flatten).Nodup :=
  ⟨rfl, rfl, by decide⟩

/-- Gaps of at least `maxB + 1` between consecutive clock readings
separate any two readings by at least `maxB + 1`. -/
theorem clock_chain (clock : Nat → Int) (maxB : Int) (hmax : 0 ≤ maxB)
    (hgap : ∀ n, clock n + (maxB + 1) ≤ clock (n + 1)) :
    ∀ i j, i < j → clock i + (maxB + 1) ≤ clock j := by
  intro i j hij
  induction j with
  | zero => omega
  | succ j ih =>
    by_cases hj : i < j
    · have h1 := ih hj
      have h2 := hgap j
      omega
    · have : i = j := by omega
      subst this
      exact hgap i

/-- After the end-of-input flush, every logged window `k` still carries
the contiguous sequence numbers based at `clock k`, and holds at most
`maxB + 1` operations. -/
theorem finalFlush_windows (clock : Nat → Int) (maxB : Int) (tbl : String)
    (s fin : PState) (inv : LoopInv clock maxB s)
    (h : finalFlush tbl s = .ok fin) :
    ∀ k, (hk : k < fin.flushes.length) →
      seqsOf (fin.flushes[k]).messages
        = seqRange (clock k) ((fin.flushes[k]).messages.length) ∧
      (((fin.flushes[k]).messages.length : Int) ≤ maxB + 1) := by
  unfold finalFlush at h
  split at h
  · rename_i hpos
    cases hs : s.schemaVar with
    | none =>
      rw [hs] at h
      exact Except.noConfusion h
    | some sch =>
      rw [hs] at h
      injection h with h
      subst h
      intro k hk
      simp only [List.length_append, List.length_cons, List.length_nil] at hk
      by_cases hlt : k < s.flushes.length
      · have e1 : (s.flushes ++
            [{ schema := sch, table_name := tbl,
               messages := s.messages : Flush }])[k] = s.flushes[k] :=
          List.getElem_append_left hlt
        simpa [e1] using inv.flush_seqs k hlt
      · have hke : k = s.flushes.length := by omega
        have e1 : (s.flushes ++
            [{ schema := sch, table_name := tbl,
               messages := s.messages : Flush }])[k]
            = { schema := sch, table_name := tbl,
                messages := s.messages : Flush } :=
          List.getElem_concat_length s.flushes _ k hke _
        rw [e1]
        refine ⟨?_, ?_⟩
        · dsimp only
          rw [← inv.count_eq, inv.seqs, inv.ts, hke]
        · dsimp only
          rw [← inv.count_eq]
          have := inv.count_le
          omega
  · injection h with h
    subst h
    intro k hk
    obtain ⟨e1, e2⟩ := inv.flush_seqs k hk
    exact ⟨e1, by omega⟩

/-- Claim C4 (amended): sequence numbers are unique within each batch
window, but across windows they are unique only when each refreshed base
timestamp exceeds the previous one by more than the window size; under
clock gaps of at least `batch_size + 1` between consecutive readings,
the sequence numbers of all submitted operations are pairwise
distinct. -/
theorem run_sequence_unique (mkV : JsonV → Except String Unit)
    (validate : JsonV → JsonV → Except String Unit)
    (clock : Nat → Int) (cfg : Config) (lines : List (Option JsonV))
    (st : JsonV) (fin : PState)
    (hmax : 0 ≤ cfg.maxBatchSize)
    (hgap : ∀ n, clock n + (cfg.maxBatchSize + 1) ≤ clock (n + 1))
    (h : persist_lines mkV validate clock cfg lines = .ok (st, fin)) :
    ((fin.flushes.map (fun f => seqsOf f.messages)).flatten).Nodup := by
  unfold persist_lines at h
  cases h1 : persistMsgs mkV validate clock cfg.maxBatchSize cfg.tableName
      lines (initState clock) with
  | error e => simp [h1] at h
  | ok s =>
    simp only [h1] at h
    cases h2 : finalFlush cfg.tableName s with
    | error e => simp [h2] at h
    | ok s1 =>
      simp only [h2] at h
      injection h with h
      have hfin : s1 = fin := congrArg Prod.snd h
      subst hfin
      have inv := persistMsgs_inv mkV validate clock cfg.maxBatchSize
        cfg.tableName hmax lines (initState clock) s
        (initState_inv clock cfg.maxBatchSize hmax) h1
      have windows := finalFlush_windows clock cfg.maxBatchSize
        cfg.tableName s s1 inv h2
      rw [List.nodup_flatten]
      constructor
      · intro l hl
        rw [List.mem_iff_getElem] at hl
        obtain ⟨i, hi, rfl⟩ := hl
        rw [List.length_map] at hi
        rw [List.getElem_map, (windows i hi).1]
        exact seqRange_nodup _ _
      · rw [List.pairwise_iff_getElem]
        intro i j hi hj hij
        rw [List.length_map] at hi hj
        rw [List.getElem_map, List.getElem_map]
        intro x hx hy
        rw [(windows i hi).1] at hx
        rw [(windows j hj).1] at hy
        obtain ⟨hx1, hx2⟩ := mem_seqRange _ _ _ hx
        obtain ⟨hy1, hy2⟩ := mem_seqRange _ _ _ hy
        have hb := (windows i hi).2
        have hchain := clock_chain clock cfg.maxBatchSize hmax hgap i j hij
        omega

def clkGap : Nat → Int := fun n => 2000 * n

def c4gfin : PState :=
  finStateOf (persist_lines mkVAll valAll clkGap ⟨some 1, none⟩ c4lines)

/-- Concrete instantiation of `run_sequence_unique` with a clock that
advances by 2000 per flush. -/
theorem run_sequence_unique_witness :
    ((c4gfin.flushes.map (fun f => seqsOf f.messages)).flatten).Nodup :=
  run_sequence_unique mkVAll valAll clkGap ⟨some 1, none⟩ c4lines .null c4gfin
    (by decide) (fun n => by simp only [clkGap, Config.maxBatchSize, Option.getD]; omega) rfl

/-! ### Claim C5: a record for an undeclared stream aborts the run -/

/-- Claim C5: a `RECORD` message naming a stream with no prior `SCHEMA`
declaration aborts the whole run with the schema-not-declared error;
the error state is exactly the state `s` reached before the message, so
no submission is logged for that message and the already-accumulated
but unflushed operations (`s.messages`) are never submitted (the final
flush is not reached). -/
theorem record_unknown_stream_aborts (mkV : JsonV → Except String Unit)
    (validate : JsonV → JsonV → Except String Unit)
    (clock : Nat → Int) (cfg : Config) (pre rest : List (Option JsonV))
    (fs : List (String × JsonV)) (stv : JsonV) (s : PState)
    (hpre : persistMsgs mkV validate clock cfg.maxBatchSize cfg.tableName pre
      (initState clock) = .ok s)
    (htype : fieldGet fs "type" = some (.str "RECORD"))
    (hstream : fieldGet fs "stream" = some stv)
    (hhash : hashable stv = true)
    (hnone : dictFind s.schemas stv = none) :
    persist_lines mkV validate clock cfg (pre ++ some (.obj fs) :: rest)
      = .error (.schemaNotDeclared stv, s) := by
  have hstep : procMsg mkV validate (.obj fs) s
      = .error (.schemaNotDeclared stv, s) := by
    simp [procMsg, procRecord, pyIn, pyGet, htype, hstream, isStr, hhash,
      hnone]
  unfold persist_lines
  rw [persistMsgs_append, hpre]
  simp [persistMsgs, hstep]

def c5s : PState := stateOf (persistMsgs mkVAll valAll clk100 1000 "" []
  (initState clk100))

/-- Concrete instantiation of `record_unknown_stream_aborts`: a lone
`RECORD` for the never-declared stream `orders`. -/
theorem record_unknown_stream_aborts_witness :
    persist_lines mkVAll valAll clk100 ⟨none, none⟩
      ([] ++ some (.obj [("type", .str "RECORD"), ("stream", .str "orders"),
        ("record", .num 1)]) :: [])
      = .error (.schemaNotDeclared (.str "orders"), c5s) :=
  record_unknown_stream_aborts mkVAll valAll clk100 ⟨none, none⟩ [] []
    [("type", .str "RECORD"), ("stream", .str "orders"), ("record", .num 1)]
    (.str "orders") c5s rfl rfl rfl rfl rfl

/-! ### Claim C6: an invalid schema document rejects the whole run -/

/-- Claim C6: when the validator constructor rejects the declared schema
document, the run aborts at the declaration itself with the
invalid-schema error — before any record for that stream (all of `rest`
is never processed), with no further submission (the error state differs
from `s` only in the `schemas` entry written just before the
constructor ran). -/
theorem invalid_schema_rejects_run (mkV : JsonV → Except String Unit)
    (validate : JsonV → JsonV → Except String Unit)
    (clock : Nat → Int) (cfg : Config) (pre rest : List (Option JsonV))
    (fs : List (String × JsonV)) (stv sc : JsonV) (m : String) (s : PState)
    (hpre : persistMsgs mkV validate clock cfg.maxBatchSize cfg.tableName pre
      (initState clock) = .ok s)
    (htype : fieldGet fs "type" = some (.str "SCHEMA"))
    (hstream : fieldGet fs "stream" = some stv)
    (hschema : fieldGet fs "schema" = some sc)
    (hhash : hashable stv = true)
    (hmk : mkV sc = .error m) :
    persist_lines mkV validate clock cfg (pre ++ some (.obj fs) :: rest)
      = .error (.invalidSchema m,
          { s with schemas := dictInsert s.schemas stv sc }) ∧
    ({ s with schemas := dictInsert s.schemas stv sc } : PState).messages
      = s.messages ∧
    ({ s with schemas := dictInsert s.schemas stv sc } : PState).flushes
      = s.flushes := by
  have hstep : procMsg mkV validate (.obj fs) s
      = .error (.invalidSchema m,
          { s with schemas := dictInsert s.schemas stv sc }) := by
    simp [procMsg, procSchema, pyIn, pyGet, htype, hstream, hschema, isStr,
      hhash, hmk]
  refine ⟨?_, rfl, rfl⟩
  unfold persist_lines
  rw [persistMsgs_append, hpre]
  simp [persistMsgs, hstep]

def badSchemaMkV : JsonV → Except String Unit := fun sc =>
  if sc = .num 5 then .error "not a schema" else .ok ()

def c6s : PState := stateOf (persistMsgs badSchemaMkV valAll clk100 1000 ""
  [] (initState clk100))

/-- Concrete instantiation of `invalid_schema_rejects_run`: declaring
stream `users` with the non-schema document `5` under a constructor that
rejects it. -/
theorem invalid_schema_rejects_run_witness :
    persist_lines badSchemaMkV valAll clk100 ⟨none, none⟩
      ([] ++ some (.obj [("type", .str "SCHEMA"), ("stream", .str "users"),
        ("schema", .num 5), ("key_properties", .arr [])])
        :: [some (recordMsg "users" (.num 1))])
      = .error (.invalidSchema "not a schema",
          { c6s with schemas := dictInsert c6s.schemas (.str "users") (.num 5) }) ∧
    ({ c6s with
       schemas := dictInsert c6s.schemas (.str "users") (.num 5) } : PState).messages
      = c6s.messages ∧
    ({ c6s with
       schemas := dictInsert c6s.schemas (.str "users") (.num 5) } : PState).flushes
      = c6s.flushes :=
  invalid_schema_rejects_run badSchemaMkV valAll clk100 ⟨none, none⟩ [] 
    [some (recordMsg "users" (.num 1))]
    [("type", .str "SCHEMA"), ("stream", .str "users"), ("schema", .num 5),
     ("key_properties", .arr [])]
    (.str "users") (.num 5) "not a schema" c6s rfl rfl rfl rfl rfl
    (by simp [badSchemaMkV])

/-! ### Claim C7: SCHEMA without key_properties -/

def c7msg : JsonV :=
  .obj [("type", .str "SCHEMA"), ("stream", .str "users"),
        ("schema", usersSchema)]

def c7s : PState :=
  finStateOf (persist_lines mkVAll valAll clk100 ⟨none, none⟩ [some c7msg])

/-- Claim C7 (counterexample): a `SCHEMA` message without
`key_properties` does fail with the missing-key_properties error, but
the Schema Registry is not left unchanged: the schema and the validator
for the stream are registered before the error is raised. -/
theorem schema_missing_keyprops_cex :
    persist_lines mkVAll valAll clk100 ⟨none, none⟩ [some c7msg]
      = .error (.missingKeyProperties, c7s) ∧
    dictFind c7s.schemas (.str "users") = some usersSchema ∧
    dictFind c7s.validators (.str "users") = some usersSchema ∧
    ¬ (c7s.schemas = (initState clk100).schemas) :=
  ⟨rfl, rfl, rfl, by decide⟩

/-- Claim C7 (amended): a `SCHEMA` message lacking `key_properties`
fails with the missing-key_properties error, but only the key-properties
registry is left unchanged: the schema and validator entries for the
stream are registered before the error is raised (the check runs after
both assignments). -/
theorem schema_missing_keyprops (mkV : JsonV → Except String Unit)
    (validate : JsonV → JsonV → Except String Unit)
    (clock : Nat → Int) (cfg : Config) (pre rest : List (Option JsonV))
    (fs : List (String × JsonV)) (stv sc : JsonV) (s : PState)
    (hpre : persistMsgs mkV validate clock cfg.maxBatchSize cfg.tableName pre
      (initState clock) = .ok s)
    (htype : fieldGet fs "type" = some (.str "SCHEMA"))
    (hstream : fieldGet fs "stream" = some stv)
    (hschema : fieldGet fs "schema" = some sc)
    (hhash : hashable stv = true)
    (hmk : mkV sc = .ok ())
    (hnokp : fieldGet fs "key_properties" = none) :
    persist_lines mkV validate clock cfg (pre ++ some (.obj fs) :: rest)
      = .error (.missingKeyProperties,
          { s with
            schemas := dictInsert s.schemas stv sc
            validators := dictInsert s.validators stv sc }) ∧
    dictFind (dictInsert s.schemas stv sc) stv = some sc ∧
    dictFind (dictInsert s.validators stv sc) stv = some sc ∧
    ({ s with
       schemas := dictInsert s.schemas stv sc
       validators := dictInsert s.validators stv sc } : PState).key_properties
      = s.key_properties := by
  have hstep : procMsg mkV validate (.obj fs) s
      = .error (.missingKeyProperties,
          { s with
            schemas := dictInsert s.schemas stv sc
            validators := dictInsert s.validators stv sc }) := by
    simp [procMsg, procSchema, pyIn, pyGet, htype, hstream, hschema, isStr,
      hhash, hmk, hnokp]
  refine ⟨?_, dictFind_insert_self _ _ _, dictFind_insert_self _ _ _, rfl⟩
  unfold persist_lines
  rw [persistMsgs_append, hpre]
  simp [persistMsgs, hstep]

def c7pres : PState := stateOf (persistMsgs mkVAll valAll clk100 1000 "" []
  (initState clk100))

/-- Concrete instantiation of `schema_missing_keyprops` on the
`key_properties`-less `users` declaration. -/
theorem schema_missing_keyprops_witness :
    persist_lines mkVAll valAll clk100 ⟨none, none⟩
      ([] ++ some (.obj [("type", .str "SCHEMA"), ("stream", .str "users"),
        ("schema", usersSchema)]) :: [])
      = .error (.missingKeyProperties,
          { c7pres with
            schemas := dictInsert c7pres.schemas (.str "users") usersSchema
            validators := dictInsert c7pres.validators (.str "users")
              usersSchema }) ∧
    dictFind (dictInsert c7pres.schemas (.str "users") usersSchema)
      (.str "users") = some usersSchema ∧
    dictFind (dictInsert c7pres.validators (.str "users") usersSchema)
      (.str "users") = some usersSchema ∧
    ({ c7pres with
       schemas := dictInsert c7pres.schemas (.str "users") usersSchema
       validators := dictInsert c7pres.validators (.str "users")
         usersSchema } : PState).key_properties = c7pres.key_properties :=
  schema_missing_keyprops mkVAll valAll clk100 ⟨none, none⟩ [] []
    [("type", .str "SCHEMA"), ("stream", .str "users"),
     ("schema", usersSchema)]
    (.str "users") usersSchema c7pres rfl rfl rfl rfl rfl rfl rfl

/-! ### Claim C10: RECORD lacking the record field raises KeyError -/

/-- Claim C10: a `RECORD` message naming an already-declared stream but
lacking the `record` field aborts with the unguarded key-lookup error
(`KeyError('record')`) rather than any of the specified fatal error
kinds; the record is not appended to the batch (the error state differs
from `s` only in the already-assigned `schema` local). -/
theorem record_missing_record_field (mkV : JsonV → Except String Unit)
    (validate : JsonV → JsonV → Except String Unit)
    (clock : Nat → Int) (cfg : Config) (pre rest : List (Option JsonV))
    (fs : List (String × JsonV)) (stv sc : JsonV) (s : PState)
    (hmax : 0 ≤ cfg.maxBatchSize)
    (hpre : persistMsgs mkV validate clock cfg.maxBatchSize cfg.tableName pre
      (initState clock) = .ok s)
    (htype : fieldGet fs "type" = some (.str "RECORD"))
    (hstream : fieldGet fs "stream" = some stv)
    (hhash : hashable stv = true)
    (hsc : dictFind s.schemas stv = some sc)
    (hnorec : fieldGet fs "record" = none) :
    persist_lines mkV validate clock cfg (pre ++ some (.obj fs) :: rest)
      = .error (.keyError (.str "record"), { s with schemaVar := some sc }) ∧
    ({ s with schemaVar := some sc } : PState).messages = s.messages := by
  have inv := persistMsgs_inv mkV validate clock cfg.maxBatchSize
    cfg.tableName hmax pre (initState clock) s
    (initState_inv clock cfg.maxBatchSize hmax) hpre
  have hvs : (dictFind s.validators stv).isSome = true := by
    rw [← inv.doms stv, hsc]
    rfl
  obtain ⟨vsc, hvsc⟩ := Option.isSome_iff_exists.mp hvs
  have hstep : procMsg mkV validate (.obj fs) s
      = .error (.keyError (.str "record"), { s with schemaVar := some sc }) := by
    simp [procMsg, procRecord, pyIn, pyGet, htype, hstream, isStr, hhash,
      hsc, hvsc, hnorec]
  refine ⟨?_, rfl⟩
  unfold persist_lines
  rw [persistMsgs_append, hpre]
  simp [persistMsgs, hstep]

def c10s : PState := stateOf (persistMsgs mkVAll valAll clk100 1000 ""
  [some usersSchemaMsg] (initState clk100))

/-- Concrete instantiation of `record_missing_record_field` after
declaring `users` and sending a `RECORD` with no `record` field. -/
theorem record_missing_record_field_witness :
    persist_lines mkVAll valAll clk100 ⟨none, none⟩
      ([some usersSchemaMsg] ++ some (.obj [("type", .str "RECORD"),
        ("stream", .str "users")]) :: [])
      = .error (.keyError (.str "record"),
          { c10s with schemaVar := some usersSchema }) ∧
    ({ c10s with schemaVar := some usersSchema } : PState).messages
      = c10s.messages :=
  record_missing_record_field mkVAll valAll clk100 ⟨none, none⟩
    [some usersSchemaMsg] []
    [("type", .str "RECORD"), ("stream", .str "users")]
    (.str "users") usersSchema c10s (by decide) rfl rfl rfl rfl rfl rfl

/-! ### Claim C9: blank lines are decoded, not skipped -/

/-- Claim C9: a line that is empty or contains only whitespace is passed
to the decoder like any other line (nothing in the loop skips blanks);
since no JSON document is empty, the decoder rejects it and the run
aborts with the fatal decode (malformed-input) error at that line. -/
theorem blank_line_aborts (mkV : JsonV → Except String Unit)
    (validate : JsonV → JsonV → Except String Unit)
    (clock : Nat → Int) (cfg : Config) (decode : String → Option JsonV)
    (pre rest : List String) (l : String) (s : PState)
    (hdec : ∀ u : String, u.toList.all (fun c => c.isWhitespace) = true →
      decode u = none)
    (hl : l.toList.all (fun c => c.isWhitespace) = true)
    (hpre : persistMsgs mkV validate clock cfg.maxBatchSize cfg.tableName
      (pre.map decode) (initState clock) = .ok s) :
    persist_lines_str mkV validate clock cfg decode (pre ++ l :: rest)
      = .error (.malformedInput, s) := by
  unfold persist_lines_str persist_lines
  rw [List.map_append, persistMsgs_append, hpre, List.map_cons, hdec l hl]
  simp [persistMsgs]

def noDecode : String → Option JsonV := fun _ => none

/-- Concrete instantiation of `blank_line_aborts` on the single line
`" "`. -/
theorem blank_line_aborts_witness :
    persist_lines_str mkVAll valAll clk100 ⟨none, none⟩ noDecode
      ([] ++ " " :: []) = .error (.malformedInput, initState clk100) :=
  blank_line_aborts mkVAll valAll clk100 ⟨none, none⟩ noDecode [] [] " "
    (initState clk100) (fun _ _ => rfl) (by decide) rfl
